import Mathlib

/-!
# Verification of the `web-graph` traversal engine

Shallow embedding of `web_graph.py` (classes `ActionNode` and `WebGraph`)
and of the fallback-retry exception from `web_graph_exceptions.py`.

Modelling choices:
* Python values returned by condition callbacks are modelled by `PyVal`
  together with their truthiness, since `run_condition` coerces the raw
  result to a boolean with `if condition:`.
* User callbacks are modelled by their observable effect: an action or
  fallback callback is a function on the shared state `σ` given the driver
  `δ`; a condition callback returns a `PyVal`.  The signature-introspecting
  invocation adapter `ActionNode._call_function` is modelled separately
  (`PyCallback`, `callKwargs`, `callFunction`) because the claims about it
  concern which keyword arguments are built from the declared parameter
  names and how awaitable results are unwrapped.
* The mutable object graph (`WebGraph._nodes`, a dict from names to
  `WebGraphNode` wrappers whose `edge_nodes` lists alias the entries of the
  parents) is modelled by an insertion-ordered association list from node
  names to the node and the list of its children's names.  The engine
  itself indexes children through `self._nodes[current_node.node.name]`,
  so the name indirection is faithful to the source.
* The `while not end_found` loop of `WebGraph.run` is modelled by a step
  function `WebGraph.step` on the loop state plus fuel-indexed iteration
  `WebGraph.runLoop`; `Outcome.spin` means the loop is still running after
  the given number of iterations, `Outcome.raised` models raising
  `MaxFallbackRetriesReachedError`, and `Outcome.pyError` models the
  `AttributeError` that Python would raise if `current_node` were still
  `None` at the retry-ceiling check (unreachable from `run`, whose initial
  frontier `[START]` always matches).
-/

/-- Python runtime value, as far as condition results are concerned:
only its truthiness matters to the engine. -/
inductive PyVal : Type where
  | none : PyVal
  | bool (b : Bool) : PyVal
  | int (n : Int) : PyVal
  | str (s : String) : PyVal
deriving DecidableEq

/-- Python truthiness of a value (`if condition:` in `run_condition`). -/
def PyVal.truthy : PyVal → Bool
  | .none => false
  | .bool b => b
  | .int n => if n = 0 then false else true
  | .str s => if s = "" then false else true

/-! ## The invocation adapter (`ActionNode._call_function`)

A user callback is modelled by the list of parameter names its signature
declares (what `inspect.signature(f).parameters` reports) together with a
function from the optionally-supplied `driver` and `state` keyword
arguments to a result that is either plain (synchronous return) or
awaitable (the function returned an awaitable that the adapter awaits). -/

/-- Result of invoking a callback: a plain value or an awaitable of one. -/
inductive CallResult (α : Type) : Type where
  | sync (v : α) : CallResult α
  | async (v : α) : CallResult α

/-- The value a `CallResult` resolves to (awaiting when awaitable). -/
def CallResult.value {α : Type} : CallResult α → α
  | .sync v => v
  | .async v => v

/-- Whether `inspect.isawaitable` holds of the callback's raw result. -/
def CallResult.isAwaitable {α : Type} : CallResult α → Bool
  | .sync _ => false
  | .async _ => true

/-- A Python callback as seen by `_call_function`: its declared parameter
names and its behaviour given the keyword arguments actually supplied. -/
structure PyCallback (δ σ α : Type) : Type where
  params : List String
  fn : Option δ → Option σ → CallResult α

/-- The keyword-argument dictionary built by `_call_function`: `driver` is
supplied iff `"driver" in function_parameters`, `state` iff `"state"`. -/
def callKwargs {δ σ α : Type} (f : PyCallback δ σ α) (driver : δ) (state : σ) :
    Option δ × Option σ :=
  (if f.params.contains "driver" then some driver else none,
   if f.params.contains "state" then some state else none)

/-- `ActionNode._call_function`: build the kwargs, call the function and
await the result exactly when it is awaitable. -/
def callFunction {δ σ α : Type} (f : PyCallback δ σ α) (driver : δ) (state : σ) : α :=
  let kw := callKwargs f driver state
  (f.fn kw.1 kw.2).value

/-! ## `ActionNode` -/

/-- The settings of an `ActionNode` (`ActionNodeSettings`): name, the
required action, the optional condition and fallback action, and the
optional per-node retry ceiling `fallback_action_max_retries` (a Python
`int`, hence `Int`).  Callbacks are modelled by their effect: actions and
fallback actions transform the shared state given the driver, conditions
return a `PyVal` whose truthiness the node coerces to `Bool`. -/
structure ActionNode (σ δ : Type) : Type where
  name : String
  action : δ → σ → σ
  condition : Option (δ → σ → PyVal) := none
  fallback_action : Option (δ → σ → σ) := none
  fallback_action_max_retries : Option Int := none

/-- `ActionNode.run`: execute the action. -/
def ActionNode.run {σ δ : Type} (n : ActionNode σ δ) (driver : δ) (st : σ) : σ :=
  n.action driver st

/-- `ActionNode.run_condition`: `True` when no condition is defined,
otherwise the truthiness of the condition's result (`if condition: return
True` then `return False`). -/
def ActionNode.run_condition {σ δ : Type} (n : ActionNode σ δ) (driver : δ) (st : σ) : Bool :=
  match n.condition with
  | none => true
  | some c => if (c driver st).truthy then true else false

/-- `ActionNode.run_fallback`: execute the fallback action if defined,
otherwise return (leaving the state unchanged). -/
def ActionNode.run_fallback {σ δ : Type} (n : ActionNode σ δ) (driver : δ) (st : σ) : σ :=
  match n.fallback_action with
  | none => st
  | some f => f driver st

/-! ## `WebGraph`: registry and builder API -/

/-- A registry entry: the wrapped `ActionNode` and the names of its edge
nodes, in insertion order (a `WebGraphNode` of the source; children are
stored by name because node names are unique keys of `WebGraph._nodes` and
the engine follows edges through `self._nodes[current_node.node.name]`). -/
abbrev GraphEntry (σ δ : Type) := String × ActionNode σ δ × List String

/-- Lookup by name in the registry (`self._nodes.get(name)`). -/
def lookupNode {σ δ : Type} : List (GraphEntry σ δ) → String → Option (ActionNode σ δ × List String)
  | [], _ => none
  | e :: rest, n => if e.1 = n then some e.2 else lookupNode rest n

/-- Append a child name to the entry of `parent`
(`starting_webgraph_node.edge_nodes.append(new_webgraph_node)`; names are
unique registry keys, so at most one entry is affected). -/
def appendChildTo {σ δ : Type} : List (GraphEntry σ δ) → String → String → List (GraphEntry σ δ)
  | [], _, _ => []
  | e :: rest, parent, child =>
    if e.1 = parent then (e.1, e.2.1, e.2.2 ++ [child]) :: appendChildTo rest parent child
    else e :: appendChildTo rest parent child

/-- The `WebGraph`: its settings (`driver`, `state`,
`fallback_action_max_retries`), the registry `_nodes`, and the builder
cursor `_current_node`. -/
structure WebGraph (σ δ : Type) : Type where
  driver : δ
  state : σ
  fallback_action_max_retries : Option Int := none
  nodes : List (GraphEntry σ δ)
  current_node : ActionNode σ δ

/-- The synthetic `START` sentinel node `ActionNode("START", lambda: None)`:
its action is a no-op on the state, it has no condition, no fallback action
and no per-node retry ceiling. -/
def startNode (σ δ : Type) : ActionNode σ δ :=
  { name := "START", action := fun _ st => st }

/-- `WebGraph.__init__`: registry holding only the `START` node with no
children, builder cursor at `START`. -/
def mkWebGraph {σ δ : Type} (driver : δ) (state : σ)
    (fallback_retries : Option Int := none) : WebGraph σ δ :=
  { driver := driver
  , state := state
  , fallback_action_max_retries := fallback_retries
  , nodes := [("START", startNode σ δ, [])]
  , current_node := startNode σ δ }

/-- Registry lookup on a graph. -/
def WebGraph.find {σ δ : Type} (g : WebGraph σ δ) (name : String) :
    Option (ActionNode σ δ × List String) :=
  lookupNode g.nodes name

/-- The `starting_node` argument of `add_edge_node`: an `ActionNode` or a
name (`None` is modelled by `Option`). -/
inductive StartingNode (σ δ : Type) : Type where
  | node (n : ActionNode σ δ) : StartingNode σ δ
  | name (s : String) : StartingNode σ δ

/-- Errors raised by the builder API. -/
inductive GraphError : Type where
  | duplicateName (name : String) : GraphError
  | startingNotFound (name : String) : GraphError
deriving DecidableEq

/-- `WebGraph.add_edge_node`: raise on a duplicate name, resolve the
attachment target (an `ActionNode`'s name, a name, or — when omitted —
the name of the `START` node), then either append the new node as a child
of the target, register it and advance the builder cursor, or raise when
the target is not registered. -/
def WebGraph.addEdgeNode {σ δ : Type} (g : WebGraph σ δ) (node : ActionNode σ δ)
    (starting : Option (StartingNode σ δ)) : Except GraphError (WebGraph σ δ) :=
  if (g.find node.name).isSome then
    .error (.duplicateName node.name)
  else
    let startName : String :=
      match starting with
      | some (.node a) => a.name
      | some (.name s) => s
      | none => "START"
    match g.find startName with
    | some _ =>
      .ok { g with
            nodes := appendChildTo g.nodes startName node.name ++ [(node.name, node, [])]
          , current_node := node }
    | none => .error (.startingNotFound startName)

/-- `WebGraph.add_step`: build a minimal node and attach it, passing the
builder cursor explicitly as the attachment target. -/
def WebGraph.addStep {σ δ : Type} (g : WebGraph σ δ) (name : String)
    (action : δ → σ → σ) : Except GraphError (WebGraph σ δ × ActionNode σ δ) :=
  let node : ActionNode σ δ := { name := name, action := action }
  (g.addEdgeNode node (some (.node g.current_node))).map (fun g' => (g', node))

/-- `WebGraph.set_current_node`: the source builds a `ValueError` when the
node is not registered but never raises it (the `raise` keyword is
missing), so the method always repositions the builder cursor, with no
effect of the membership check. -/
def WebGraph.setCurrentNode {σ δ : Type} (g : WebGraph σ δ) (node : ActionNode σ δ) :
    WebGraph σ δ :=
  { g with current_node := node }

/-! ## The traversal engine (`WebGraph.run`) -/

/-- Observable callback invocations of a run: an action callback of the
named node was executed, or its fallback action callback was executed. -/
inductive Ev : Type where
  | action (name : String) : Ev
  | fallback (name : String) : Ev
deriving DecidableEq

/-- The local variables of the `while` loop of `WebGraph.run`
(`current_edge_nodes`, `current_node`, `current_retries`) together with
the shared state and the trace of callback invocations so far. -/
structure LoopSt (σ : Type) : Type where
  frontier : List String
  current : Option String
  retries : Nat
  st : σ
  trace : List Ev

/-- Result of one execution of the loop body. -/
inductive StepOut (σ : Type) : Type where
  | next (s : LoopSt σ) : StepOut σ
  | done (s : LoopSt σ) : StepOut σ
  | raised (name : String) (ceiling : Int) (s : LoopSt σ) : StepOut σ
  | pyError (s : LoopSt σ) : StepOut σ

/-- Terminal observation of a fuel-bounded run. `spin` means the loop was
still running when the fuel ran out; `raised` models
`MaxFallbackRetriesReachedError(name, ceiling)`; `pyError` models the
`AttributeError` on `current_node.node` when `current_node` is `None`. -/
inductive Outcome : Type where
  | done : Outcome
  | raised (name : String) (ceiling : Int) : Outcome
  | pyError : Outcome
  | spin : Outcome
deriving DecidableEq

/-- The `for edge_node in current_edge_nodes` scan: the name of the first
frontier node whose `run_condition` is true (names missing from the
registry cannot arise from the builder API and are skipped). -/
def WebGraph.findFirstMatch {σ δ : Type} (g : WebGraph σ δ) (st : σ) :
    List String → Option String
  | [] => none
  | n :: rest =>
    match g.find n with
    | some p => if p.1.run_condition g.driver st then some n else g.findFirstMatch st rest
    | none => g.findFirstMatch st rest

/-- Tail of the loop body after the retry-ceiling checks: on a match the
frontier becomes the matched node's edge nodes (looked up through the
registry, as in `self._nodes[current_node.node.name].edge_nodes`);
otherwise `current.run_fallback` executes (recorded in the trace only when
a fallback action is defined) and the retry counter is incremented.  The
loop ends (`end_found`) when the resulting frontier is empty. -/
def WebGraph.stepCont {σ δ : Type} (g : WebGraph σ δ) (executed : Bool) (cn : String)
    (cp : ActionNode σ δ × List String) (s1 : LoopSt σ) : StepOut σ :=
  let s2 : LoopSt σ :=
    if executed then { s1 with frontier := cp.2 }
    else { s1 with
           st := cp.1.run_fallback g.driver s1.st
         , retries := s1.retries + 1
         , trace := s1.trace ++ (if cp.1.fallback_action.isSome then [Ev.fallback cn] else []) }
  if s2.frontier.isEmpty then StepOut.done s2 else StepOut.next s2

/-- One execution of the body of `while not end_found`: scan the frontier
and execute the first matching node's action (resetting the retry counter
and moving `current` there), then check the per-node retry ceiling, then
the graph-level default ceiling (only when the node defines none), raising
`MaxFallbackRetriesReachedError` when `current_retries` has reached the
resolved ceiling, and finally advance or run the fallback. -/
def WebGraph.step {σ δ : Type} (g : WebGraph σ δ) (s : LoopSt σ) : StepOut σ :=
  let scan : Bool × LoopSt σ :=
    match g.findFirstMatch s.st s.frontier with
    | some n =>
      match g.find n with
      | some p =>
        (true, { s with
                 st := p.1.run g.driver s.st
               , retries := 0
               , current := some n
               , trace := s.trace ++ [Ev.action n] })
      | none => (false, s)
    | none => (false, s)
  let executed := scan.1
  let s1 := scan.2
  match s1.current with
  | none => StepOut.pyError s1
  | some cn =>
    match g.find cn with
    | none => StepOut.pyError s1
    | some cp =>
      match cp.1.fallback_action_max_retries with
      | some m =>
        if (s1.retries : Int) ≥ m then StepOut.raised cn m s1
        else g.stepCont executed cn cp s1
      | none =>
        match g.fallback_action_max_retries with
        | some m =>
          if (s1.retries : Int) ≥ m then StepOut.raised cn m s1
          else g.stepCont executed cn cp s1
        | none => g.stepCont executed cn cp s1

/-- Fuel-bounded iteration of the loop body. -/
def WebGraph.runLoop {σ δ : Type} (g : WebGraph σ δ) : Nat → LoopSt σ → Outcome × LoopSt σ
  | 0, s => (Outcome.spin, s)
  | n + 1, s =>
    match g.step s with
    | StepOut.next s' => g.runLoop n s'
    | StepOut.done s' => (Outcome.done, s')
    | StepOut.raised nm c s' => (Outcome.raised nm c, s')
    | StepOut.pyError s' => (Outcome.pyError, s')

/-- The initial loop state of `WebGraph.run`: `current_node = None`,
`current_edge_nodes = self._starting_edge_nodes` — the singleton list
holding the `START` node itself — and `current_retries = 0`. -/
def WebGraph.initLoopSt {σ δ : Type} (g : WebGraph σ δ) : LoopSt σ :=
  { frontier := ["START"], current := none, retries := 0, st := g.state, trace := [] }

/-- `WebGraph.run`, bounded by `fuel` loop iterations. -/
def WebGraph.run {σ δ : Type} (g : WebGraph σ δ) (fuel : Nat) : Outcome × LoopSt σ :=
  g.runLoop fuel g.initLoopSt

/-! ## Helper lemmas -/

theorem lookupNode_mem {σ δ : Type} {l : List (GraphEntry σ δ)} {n : String}
    {p : ActionNode σ δ × List String} (h : lookupNode l n = some p) :
    (n, p) ∈ l := by
  induction l with
  | nil => simp [lookupNode] at h
  | cons e rest ih =>
    rw [lookupNode] at h
    by_cases he : e.1 = n
    · rw [if_pos he] at h
      injection h with h2
      subst h2
      rw [← he]
      exact List.mem_cons_self _ _
    · rw [if_neg he] at h
      exact List.mem_cons_of_mem _ (ih h)

theorem lookupNode_append_of_none {σ δ : Type} {l : List (GraphEntry σ δ)}
    {n : String} (l' : List (GraphEntry σ δ)) (h : lookupNode l n = none) :
    lookupNode (l ++ l') n = lookupNode l' n := by
  induction l with
  | nil => simp
  | cons e rest ih =>
    rw [lookupNode] at h
    by_cases he : e.1 = n
    · simp [he] at h
    · rw [List.cons_append, lookupNode, if_neg he]
      exact ih (by simpa [he] using h)

theorem lookupNode_append_of_some {σ δ : Type} {l : List (GraphEntry σ δ)}
    {n : String} {p : ActionNode σ δ × List String} (l' : List (GraphEntry σ δ))
    (h : lookupNode l n = some p) :
    lookupNode (l ++ l') n = some p := by
  induction l with
  | nil => simp [lookupNode] at h
  | cons e rest ih =>
    rw [lookupNode] at h
    rw [List.cons_append, lookupNode]
    by_cases he : e.1 = n
    · simpa [he] using h
    · rw [if_neg he]
      exact ih (by simpa [he] using h)

theorem lookupNode_appendChildTo_ne {σ δ : Type} {l : List (GraphEntry σ δ)}
    {parent child n : String} (h : n ≠ parent) :
    lookupNode (appendChildTo l parent child) n = lookupNode l n := by
  induction l with
  | nil => simp [appendChildTo]
  | cons e rest ih =>
    rw [appendChildTo, lookupNode]
    by_cases he : e.1 = parent
    · rw [if_pos he]
      rw [lookupNode]
      have : ¬ (e.1 = n) := by rw [he]; exact fun hc => h hc.symm
      rw [if_neg this, if_neg this, ih]
    · rw [if_neg he]
      rw [lookupNode]
      by_cases hn : e.1 = n
      · rw [if_pos hn, if_pos hn]
      · rw [if_neg hn, if_neg hn, ih]

theorem lookupNode_appendChildTo_eq {σ δ : Type} {l : List (GraphEntry σ δ)}
    {parent child : String} :
    lookupNode (appendChildTo l parent child) parent =
      (lookupNode l parent).map (fun p => (p.1, p.2 ++ [child])) := by
  induction l with
  | nil => simp [appendChildTo, lookupNode]
  | cons e rest ih =>
    rw [appendChildTo]
    by_cases he : e.1 = parent
    · rw [if_pos he, lookupNode, lookupNode, if_pos he, if_pos he]
      rfl
    · rw [if_neg he, lookupNode, lookupNode, if_neg he, if_neg he, ih]

theorem findFirstMatch_all_false {σ δ : Type} (g : WebGraph σ δ) (st : σ)
    (F : List String)
    (h : ∀ a ∈ F, ∀ p, g.find a = some p → p.1.run_condition g.driver st = false) :
    g.findFirstMatch st F = none := by
  induction F with
  | nil => rfl
  | cons a rest ih =>
    rw [WebGraph.findFirstMatch]
    have hrest : g.findFirstMatch st rest = none :=
      ih (fun b hb p hp => h b (List.mem_cons_of_mem _ hb) p hp)
    cases hfa : g.find a with
    | none => simpa using hrest
    | some p =>
      have := h a (List.mem_cons_self a rest) p hfa
      simp [this, hrest]

theorem findFirstMatch_append_false {σ δ : Type} (g : WebGraph σ δ) (st : σ)
    (F1 rest : List String)
    (h : ∀ a ∈ F1, ∀ p, g.find a = some p → p.1.run_condition g.driver st = false) :
    g.findFirstMatch st (F1 ++ rest) = g.findFirstMatch st rest := by
  induction F1 with
  | nil => rfl
  | cons a F1' ih =>
    rw [List.cons_append, WebGraph.findFirstMatch]
    have hrec := ih (fun b hb p hp => h b (List.mem_cons_of_mem _ hb) p hp)
    cases hfa : g.find a with
    | none => simpa using hrec
    | some p =>
      have := h a (List.mem_cons_self a F1') p hfa
      simp [this, hrec]

theorem findFirstMatch_cons_true {σ δ : Type} (g : WebGraph σ δ) (st : σ)
    (b : String) (rest : List String) {p : ActionNode σ δ × List String}
    (hfind : g.find b = some p) (htrue : p.1.run_condition g.driver st = true) :
    g.findFirstMatch st (b :: rest) = some b := by
  rw [WebGraph.findFirstMatch, hfind]
  simp [htrue]

theorem runLoop_next {σ δ : Type} (g : WebGraph σ δ) (n : Nat) {s s' : LoopSt σ}
    (h : g.step s = StepOut.next s') :
    g.runLoop (n + 1) s = g.runLoop n s' := by
  rw [WebGraph.runLoop, h]

theorem runLoop_done {σ δ : Type} (g : WebGraph σ δ) (n : Nat) {s s' : LoopSt σ}
    (h : g.step s = StepOut.done s') :
    g.runLoop (n + 1) s = (Outcome.done, s') := by
  rw [WebGraph.runLoop, h]

theorem runLoop_raised {σ δ : Type} (g : WebGraph σ δ) (n : Nat) {s s' : LoopSt σ}
    {nm : String} {c : Int} (h : g.step s = StepOut.raised nm c s') :
    g.runLoop (n + 1) s = (Outcome.raised nm c, s') := by
  rw [WebGraph.runLoop, h]

/-- Characterization of one loop iteration on a frontier whose scan
matches node `b`: `b`'s action runs, the retry counter resets, `current`
moves to `b` and the frontier becomes `b`'s edge nodes (the retry-ceiling
checks pass because the resolved ceiling is positive while the counter was
just reset to `0`). -/
theorem step_match {σ δ : Type} (g : WebGraph σ δ) (s : LoopSt σ) (b : String)
    {bnode : ActionNode σ δ} {bchilds : List String}
    (hscan : g.findFirstMatch s.st s.frontier = some b)
    (hfind : g.find b = some (bnode, bchilds))
    (hceil : ∀ m : Int, bnode.fallback_action_max_retries = some m → 0 < m)
    (hdef : bnode.fallback_action_max_retries = none →
      ∀ m : Int, g.fallback_action_max_retries = some m → 0 < m) :
    g.step s = (if bchilds.isEmpty then StepOut.done else StepOut.next)
      { frontier := bchilds, current := some b, retries := 0,
        st := bnode.run g.driver s.st, trace := s.trace ++ [Ev.action b] } := by
  rw [WebGraph.step]
  simp only [hscan, hfind]
  have hcont :
      g.stepCont true b (bnode, bchilds)
        { s with
          st := bnode.run g.driver s.st, retries := 0, current := some b,
          trace := s.trace ++ [Ev.action b] } =
      (if bchilds.isEmpty then StepOut.done else StepOut.next)
        { frontier := bchilds, current := some b, retries := 0,
          st := bnode.run g.driver s.st, trace := s.trace ++ [Ev.action b] } := by
    rw [WebGraph.stepCont]
    by_cases hb : bchilds.isEmpty
    · simp [hb]
    · simp [hb]
  cases hm : bnode.fallback_action_max_retries with
  | some m =>
    have hpos := hceil m hm
    have : ¬ ((0 : Int) ≥ m) := by omega
    simpa [this] using hcont
  | none =>
    cases hgm : g.fallback_action_max_retries with
    | some m =>
      have hpos := hdef hm m hgm
      have : ¬ ((0 : Int) ≥ m) := by omega
      simpa [this] using hcont
    | none => simpa using hcont

/-- Characterization of one loop iteration on a frontier with no matching
node, below the retry ceiling: `current`'s fallback runs (appearing in the
trace only when a fallback action is defined), the retry counter is
incremented and the same non-empty frontier is rescanned. -/
theorem step_nomatch {σ δ : Type} (g : WebGraph σ δ) (s : LoopSt σ) (cn : String)
    {cnode : ActionNode σ δ} {cchilds : List String}
    (hscan : g.findFirstMatch s.st s.frontier = none)
    (hcur : s.current = some cn)
    (hfind : g.find cn = some (cnode, cchilds))
    (hceil : ∀ m : Int, cnode.fallback_action_max_retries = some m → (s.retries : Int) < m)
    (hdef : cnode.fallback_action_max_retries = none →
      ∀ m : Int, g.fallback_action_max_retries = some m → (s.retries : Int) < m)
    (hne : s.frontier ≠ []) :
    g.step s = StepOut.next
      { s with
        st := cnode.run_fallback g.driver s.st, retries := s.retries + 1,
        trace := s.trace ++
          (if cnode.fallback_action.isSome then [Ev.fallback cn] else []) } := by
  rw [WebGraph.step]
  simp only [hscan, hcur, hfind]
  have hcont :
      g.stepCont false cn (cnode, cchilds) s = StepOut.next
        { s with
          st := cnode.run_fallback g.driver s.st, retries := s.retries + 1,
          trace := s.trace ++
            (if cnode.fallback_action.isSome then [Ev.fallback cn] else []) } := by
    rw [WebGraph.stepCont]
    simp [hne]
  rw [hcur] at hcont
  cases hm : cnode.fallback_action_max_retries with
  | some m =>
    have hlt := hceil m hm
    have : ¬ ((s.retries : Int) ≥ m) := by omega
    simpa [this] using hcont
  | none =>
    cases hgm : g.fallback_action_max_retries with
    | some m =>
      have hlt := hdef hm m hgm
      have : ¬ ((s.retries : Int) ≥ m) := by omega
      simpa [this] using hcont
    | none => simpa using hcont

/-- Characterization of one loop iteration on a frontier with no matching
node once the node-level retry ceiling is reached: the engine raises
`MaxFallbackRetriesReachedError` naming `current` and its own ceiling. -/
theorem step_raise_node {σ δ : Type} (g : WebGraph σ δ) (s : LoopSt σ) (cn : String)
    {cnode : ActionNode σ δ} {cchilds : List String} {m : Int}
    (hscan : g.findFirstMatch s.st s.frontier = none)
    (hcur : s.current = some cn)
    (hfind : g.find cn = some (cnode, cchilds))
    (hm : cnode.fallback_action_max_retries = some m)
    (hge : (s.retries : Int) ≥ m) :
    g.step s = StepOut.raised cn m s := by
  rw [WebGraph.step]
  simp only [hscan, hcur, hfind, hm]
  simp [hge]

/-! ## Claim theorems -/

/-- C10: `run_condition` returns exactly a boolean: `True` when no
condition is defined, `True` when the condition's resolved result is
truthy (even a non-boolean value), `False` when it is falsy; the raw
result (a `PyVal`) is never handed to the engine, only the `Bool`. -/
theorem c10_run_condition_booleanizes {σ δ : Type} (n : ActionNode σ δ) (d : δ) (st : σ) :
    (n.condition = none → n.run_condition d st = true) ∧
    (∀ c, n.condition = some c →
      ((c d st).truthy = true → n.run_condition d st = true) ∧
      ((c d st).truthy = false → n.run_condition d st = false)) := by
  refine ⟨fun h => ?_, fun c hc => ⟨fun ht => ?_, fun ht => ?_⟩⟩
  · rw [ActionNode.run_condition, h]
  · simp [ActionNode.run_condition, hc, ht]
  · simp [ActionNode.run_condition, hc, ht]

/-- A node whose condition returns the truthy non-boolean `5`. -/
def c10NodeTruthy : ActionNode Nat Unit :=
  { name := "T", action := fun _ s => s, condition := some (fun _ _ => PyVal.int 5) }

/-- A node whose condition returns the falsy non-boolean `""`. -/
def c10NodeFalsy : ActionNode Nat Unit :=
  { name := "F", action := fun _ s => s, condition := some (fun _ _ => PyVal.str "") }

/-- Witness for C10 at concrete nodes: a truthy non-boolean result gives
`true`, a falsy one gives `false`. -/
theorem c10_witness :
    c10NodeTruthy.run_condition () 0 = true ∧ c10NodeFalsy.run_condition () 0 = false :=
  ⟨((c10_run_condition_booleanizes c10NodeTruthy () 0).2 _ rfl).1 rfl,
   ((c10_run_condition_booleanizes c10NodeFalsy () 0).2 _ rfl).2 rfl⟩

/-- C6: the invocation adapter passes the driver iff the callback declares
a parameter named `driver`, the state iff it declares `state` (neither
declared means a call with no arguments), and returns the callback's
resolved value unchanged whether the raw result was awaitable (which the
adapter awaits) or a plain synchronous value. -/
theorem c6_call_function_adapter {δ σ α : Type} (f : PyCallback δ σ α) (d : δ) (s : σ) :
    ((callKwargs f d s).1 = some d ↔ f.params.contains "driver" = true) ∧
    ((callKwargs f d s).2 = some s ↔ f.params.contains "state" = true) ∧
    (f.params.contains "driver" = false → f.params.contains "state" = false →
      callKwargs f d s = (none, none)) ∧
    (∀ v, f.fn (callKwargs f d s).1 (callKwargs f d s).2 = CallResult.sync v →
      callFunction f d s = v) ∧
    (∀ v, f.fn (callKwargs f d s).1 (callKwargs f d s).2 = CallResult.async v →
      callFunction f d s = v) := by
  refine ⟨?_, ?_, fun h1 h2 => ?_, fun v hv => ?_, fun v hv => ?_⟩
  · by_cases h : f.params.contains "driver" <;> simp [callKwargs, h]
  · by_cases h : f.params.contains "state" <;> simp [callKwargs, h]
  · rw [callKwargs, h1, h2]
    simp
  · rw [callFunction, hv]
    rfl
  · rw [callFunction, hv]
    rfl

/-- A synchronous callback declaring only `state`. -/
def c6CbState : PyCallback Unit Nat Nat :=
  { params := ["state"]
  , fn := fun _ st => CallResult.sync (match st with | some n => n + 1 | none => 0) }

/-- An asynchronous callback declaring no parameters. -/
def c6CbNone : PyCallback Unit Nat Nat :=
  { params := [], fn := fun _ _ => CallResult.async 7 }

/-- Witness for C6 at concrete callbacks: the state-only callback receives
the state and its synchronous result is returned unchanged; the
zero-parameter callback gets no arguments and its awaitable result is
awaited. -/
theorem c6_witness :
    callFunction c6CbState () 41 = 42 ∧
    (callKwargs c6CbState () 41).2 = some 41 ∧
    callKwargs c6CbNone () 41 = (none, none) ∧
    callFunction c6CbNone () 41 = 7 :=
  ⟨(c6_call_function_adapter c6CbState () 41).2.2.2.1 42 rfl,
   (c6_call_function_adapter c6CbState () 41).2.1.mpr rfl,
   (c6_call_function_adapter c6CbNone () 41).2.2.1 rfl rfl,
   (c6_call_function_adapter c6CbNone () 41).2.2.2.2 7 rfl⟩

/-- A node that is never registered in the witness graph. -/
def c7Node : ActionNode Nat Unit := { name := "X", action := fun _ s => s }

/-- C7 (code bug): `set_current_node` builds a `ValueError` when the node
is not registered but never raises it — the `raise` keyword is missing —
so on an unregistered node the call silently succeeds and repositions the
builder cursor to the unregistered node (the registry is untouched),
where the claim and the spec say it must fail and leave the cursor
unchanged. -/
theorem c7_set_current_node_missing_raise :
    (mkWebGraph () (0 : Nat)).find "X" = none ∧
    ((mkWebGraph () (0 : Nat)).setCurrentNode c7Node).current_node = c7Node ∧
    ((mkWebGraph () (0 : Nat)).setCurrentNode c7Node).nodes = (mkWebGraph () (0 : Nat)).nodes :=
  ⟨rfl, rfl, rfl⟩

/-- C8: adding a node whose name is already registered fails with the
duplicate-name construction error for every choice of the `starting_node`
argument, including an unregistered one — the duplicate check is the first
statement of `add_edge_node`, so it raises before the parent is even
resolved and before any mutation of the registry, the edge lists or the
builder cursor (the embedding returns the error without building any new
graph). -/
theorem c8_duplicate_name_always_fails {σ δ : Type} (g : WebGraph σ δ)
    (node : ActionNode σ δ) (starting : Option (StartingNode σ δ))
    (p : ActionNode σ δ × List String) (h : g.find node.name = some p) :
    g.addEdgeNode node starting = Except.error (GraphError.duplicateName node.name) := by
  rw [WebGraph.addEdgeNode.eq_def]
  simp [h]

/-- A user node that reuses the reserved name of the `START` sentinel. -/
def c8Node : ActionNode Nat Unit := { name := "START", action := fun _ s => s }

/-- Witness for C8: on a fresh graph, adding a node named `START` (already
registered) fails with the duplicate-name error even though the specified
parent `"ZZZ"` is itself unregistered. -/
theorem c8_witness :
    (mkWebGraph () (0 : Nat)).addEdgeNode c8Node (some (StartingNode.name "ZZZ")) =
      Except.error (GraphError.duplicateName "START") :=
  c8_duplicate_name_always_fails (mkWebGraph () (0 : Nat)) c8Node
    (some (StartingNode.name "ZZZ")) (startNode Nat Unit, []) rfl

/-- A plain node named `A`. -/
def c9NodeA : ActionNode Nat Unit := { name := "A", action := fun _ s => s }

/-- A plain node named `B`. -/
def c9NodeB : ActionNode Nat Unit := { name := "B", action := fun _ s => s }

/-- Counterexample to C9 as stated: after attaching `A` (the builder
cursor is then `A`, the most recently attached node), attaching `B` with
the parent argument omitted does NOT attach it to the cursor: `A` stays
childless and `B` becomes a child of the `START` root instead —
`add_edge_node` resolves an omitted parent to `self._start_node.name`,
never to `self._current_node`. -/
theorem c9_counterexample :
    ((mkWebGraph () (0 : Nat)).addEdgeNode c9NodeA none).map
      (fun g1 => g1.current_node.name) = Except.ok "A" ∧
    (((mkWebGraph () (0 : Nat)).addEdgeNode c9NodeA none).bind
      (fun g1 => g1.addEdgeNode c9NodeB none)).map
      (fun g2 => ((g2.find "A").map Prod.snd, (g2.find "START").map Prod.snd)) =
      Except.ok (some [], some ["A", "B"]) :=
  ⟨rfl, rfl⟩

/-- C9 amended: when the parent argument is omitted, the new node is
attached as a child of the `START` root (regardless of where the builder
cursor points); on success the node is registered with no children and
the builder cursor advances to the new node. -/
theorem c9_amended_parent_omitted_attaches_to_root {σ δ : Type} (g : WebGraph σ δ)
    (node : ActionNode σ δ) (hdup : g.find node.name = none)
    {snode : ActionNode σ δ} {schilds : List String}
    (hstart : g.find "START" = some (snode, schilds)) :
    ∃ g' : WebGraph σ δ, g.addEdgeNode node none = Except.ok g' ∧
      g'.find "START" = some (snode, schilds ++ [node.name]) ∧
      g'.find node.name = some (node, []) ∧
      g'.current_node = node := by
  have hne : node.name ≠ "START" := by
    intro h
    rw [h, hstart] at hdup
    cases hdup
  refine ⟨{ g with
            nodes := appendChildTo g.nodes "START" node.name ++ [(node.name, node, [])]
          , current_node := node }, ?_, ?_, ?_, rfl⟩
  · rw [WebGraph.addEdgeNode.eq_def]
    simp only [hdup, Option.isSome_none, Bool.false_eq_true, if_false]
    rw [hstart]
  · show lookupNode (appendChildTo g.nodes "START" node.name ++ [(node.name, node, [])])
      "START" = some (snode, schilds ++ [node.name])
    have hstart' : lookupNode g.nodes "START" = some (snode, schilds) := hstart
    have h1 : lookupNode (appendChildTo g.nodes "START" node.name) "START" =
        some (snode, schilds ++ [node.name]) := by
      rw [lookupNode_appendChildTo_eq, hstart']
      rfl
    exact lookupNode_append_of_some _ h1
  · show lookupNode (appendChildTo g.nodes "START" node.name ++ [(node.name, node, [])])
      node.name = some (node, [])
    have h1 : lookupNode (appendChildTo g.nodes "START" node.name) node.name = none := by
      rw [lookupNode_appendChildTo_ne hne]
      exact hdup
    rw [lookupNode_append_of_none _ h1]
    simp [lookupNode]

/-- The graph of the C9 witness: `START → A` with the builder cursor on
`A` (exactly the state after `add_edge_node(A)` on a fresh graph). -/
def c9G1 : WebGraph Nat Unit :=
  { driver := ()
  , state := 0
  , nodes := [("START", startNode Nat Unit, ["A"]), ("A", c9NodeA, [])]
  , current_node := c9NodeA }

/-- Witness for the amended C9: with the cursor on `A`, attaching `B` with
the parent omitted registers `B` as a child of `START` and advances the
cursor to `B`. -/
theorem c9_amended_witness :
    (c9G1.addEdgeNode c9NodeB none).map
      (fun g' => ((g'.find "START").map Prod.snd, (g'.find "B").map Prod.snd,
        g'.current_node.name)) =
      Except.ok (some ["A", "B"], some [], "B") ∧
    c9G1.current_node.name = "A" := by
  obtain ⟨g', h1, h2, h3, h4⟩ :=
    c9_amended_parent_omitted_attaches_to_root c9G1 c9NodeB rfl
      (show c9G1.find "START" = some (startNode Nat Unit, ["A"]) from rfl)
  have h3' : g'.find "B" = some (c9NodeB, []) := h3
  refine ⟨?_, rfl⟩
  rw [h1]
  simp only [Except.map]
  rw [h2, h3', h4]
  rfl

/-- C2: at any frontier, the engine executes the action of the first node
in insertion order whose condition evaluates true — earlier-listed
siblings whose conditions are false are skipped, and no sibling's action
is executed (exactly one `Ev.action` event is appended) — then advances
the frontier to the selected node's edge nodes (the retry-ceiling
hypotheses only rule out a ceiling of zero or less, which the spec's
"positive integer" typing excludes). -/
theorem c2_first_match_selected {σ δ : Type} (g : WebGraph σ δ) (s : LoopSt σ)
    (F1 F2 : List String) (b : String) {bnode : ActionNode σ δ} {bchilds : List String}
    (hfr : s.frontier = F1 ++ b :: F2)
    (hskip : ∀ a ∈ F1, ∀ p, g.find a = some p → p.1.run_condition g.driver s.st = false)
    (hfind : g.find b = some (bnode, bchilds))
    (htrue : bnode.run_condition g.driver s.st = true)
    (hceil : ∀ m : Int, bnode.fallback_action_max_retries = some m → 0 < m)
    (hdef : bnode.fallback_action_max_retries = none →
      ∀ m : Int, g.fallback_action_max_retries = some m → 0 < m) :
    g.step s = (if bchilds.isEmpty then StepOut.done else StepOut.next)
      { frontier := bchilds, current := some b, retries := 0,
        st := bnode.run g.driver s.st, trace := s.trace ++ [Ev.action b] } := by
  have hscan : g.findFirstMatch s.st s.frontier = some b := by
    rw [hfr, findFirstMatch_append_false g s.st F1 _ hskip]
    exact findFirstMatch_cons_true g s.st b F2 hfind htrue
  exact step_match g s b hscan hfind hceil hdef

/-- Sibling node `A` of the C2 witness, whose condition is false. -/
def c2NodeA : ActionNode Nat Unit :=
  { name := "A", action := fun _ s => s + 1
  , condition := some (fun _ _ => PyVal.bool false) }

/-- Sibling node `B` of the C2 witness, whose condition is true. -/
def c2NodeB : ActionNode Nat Unit :=
  { name := "B", action := fun _ s => s + 10
  , condition := some (fun _ _ => PyVal.bool true) }

/-- Leaf node `C` of the C2 witness. -/
def c2NodeC : ActionNode Nat Unit := { name := "C", action := fun _ s => s }

/-- The C2 witness graph: `START` has the siblings `A` (false condition,
listed first) and `B` (true condition), and `B` has the child `C`. -/
def c2Graph : WebGraph Nat Unit :=
  { driver := ()
  , state := 0
  , nodes := [("START", startNode Nat Unit, ["A", "B"]),
              ("A", c2NodeA, []), ("B", c2NodeB, ["C"]), ("C", c2NodeC, [])]
  , current_node := c2NodeC }

/-- Witness for C2: scanning the frontier `[A, B]` skips the false-listed
`A`, executes `B`'s action only, and advances the frontier to `B`'s child. -/
theorem c2_witness :
    c2Graph.step
      { frontier := ["A", "B"], current := some "START", retries := 0, st := 0
      , trace := [Ev.action "START"] } = StepOut.next
      { frontier := ["C"], current := some "B", retries := 0, st := 10
      , trace := [Ev.action "START", Ev.action "B"] } := by
  have h := c2_first_match_selected c2Graph
    { frontier := ["A", "B"], current := some "START", retries := 0, st := 0
    , trace := [Ev.action "START"] } ["A"] [] "B"
    rfl
    (by
      intro a ha p hp
      rcases List.mem_singleton.mp ha with rfl
      have : p = (c2NodeA, []) := by
        have h2 := (show c2Graph.find "A" = some (c2NodeA, []) from rfl).symm.trans hp
        exact ((Option.some.injEq _ _).mp h2).symm
      rw [this]
      rfl)
    rfl rfl
    (by intro m hm; cases hm)
    (by intro _ m hm; cases hm)
  simpa using h

/-- C3: when the entry frontier — the children of the root sentinel — is
first scanned, the traversal's current node is the `START` root (the
engine's very first iteration always matches `START` itself, whose
condition is absent, and executes its no-op action); if no entry node's
condition holds there, the next iteration resolves the root's retry
ceiling (the graph default, since `START` has none), executes the root's
fallback (a no-op, `START` has no fallback action), increments the retry
counter and rescans the same frontier, rather than terminating with any
error. -/
theorem c3_initial_current_is_root {σ δ : Type} (g : WebGraph σ δ)
    {entry : List String}
    (hstart : g.find "START" = some (startNode σ δ, entry))
    (hne : entry ≠ [])
    (hdef : ∀ m : Int, g.fallback_action_max_retries = some m → 0 < m)
    (hfalse : ∀ a ∈ entry, ∀ p, g.find a = some p →
      p.1.run_condition g.driver g.state = false) :
    g.step g.initLoopSt = StepOut.next
      { frontier := entry, current := some "START", retries := 0, st := g.state
      , trace := [Ev.action "START"] } ∧
    g.step
      { frontier := entry, current := some "START", retries := 0, st := g.state
      , trace := [Ev.action "START"] } = StepOut.next
      { frontier := entry, current := some "START", retries := 1, st := g.state
      , trace := [Ev.action "START"] } := by
  constructor
  · have hscan : g.findFirstMatch g.initLoopSt.st g.initLoopSt.frontier = some "START" :=
      findFirstMatch_cons_true g _ "START" [] hstart rfl
    have h := step_match g g.initLoopSt "START" hscan hstart
      (by intro m hm; cases hm)
      (by intro _ m hm; exact hdef m hm)
    rw [h]
    have : entry.isEmpty = false := by
      cases entry with
      | nil => exact absurd rfl hne
      | cons a l => rfl
    rw [this]
    rfl
  · have hscan : g.findFirstMatch g.state entry = none :=
      findFirstMatch_all_false g g.state entry hfalse
    have h := step_nomatch g
      { frontier := entry, current := some "START", retries := 0, st := g.state
      , trace := [Ev.action "START"] } "START" hscan rfl hstart
      (by intro m hm; cases hm)
      (by
        intro _ m hm
        have := hdef m hm
        simpa using this)
      hne
    rw [h]
    rfl

/-- Entry node of the C3 witness graph, with a permanently false condition. -/
def c3NodeA : ActionNode Nat Unit :=
  { name := "A", action := fun _ s => s + 1
  , condition := some (fun _ _ => PyVal.bool false) }

/-- The C3 witness graph: `START → A` where `A`'s condition is false and
the graph-level default retry ceiling is `2`. -/
def c3Graph : WebGraph Nat Unit :=
  { driver := ()
  , state := 0
  , fallback_action_max_retries := some 2
  , nodes := [("START", startNode Nat Unit, ["A"]), ("A", c3NodeA, [])]
  , current_node := c3NodeA }

/-- Witness for C3 at a concrete graph: the first iteration makes `START`
current with the entry frontier, and with `A`'s condition false the second
iteration increments the retry counter and keeps the same frontier. -/
theorem c3_witness :
    c3Graph.step c3Graph.initLoopSt = StepOut.next
      { frontier := ["A"], current := some "START", retries := 0, st := 0
      , trace := [Ev.action "START"] } ∧
    c3Graph.step
      { frontier := ["A"], current := some "START", retries := 0, st := 0
      , trace := [Ev.action "START"] } = StepOut.next
      { frontier := ["A"], current := some "START", retries := 1, st := 0
      , trace := [Ev.action "START"] } :=
  c3_initial_current_is_root c3Graph rfl (by intro h; cases h)
    (by intro m hm; injection hm with h; omega)
    (by
      intro a ha p hp
      rcases List.mem_singleton.mp ha with rfl
      have h2 := (show c3Graph.find "A" = some (c3NodeA, []) from rfl).symm.trans hp
      rw [← ((Option.some.injEq _ _).mp h2)]
      rfl)

/-- C4: from any loop state whose current node is `cn` — with no node-level
retry ceiling, no graph-level default, a defined fallback action — and a
non-empty frontier none of whose nodes' conditions ever hold in any state,
running any number `n` of loop iterations never raises: the loop is simply
still running (`Outcome.spin`), the fallback has executed exactly `n` more
times (`n` more `Ev.fallback` events), and the retry counter has grown by
`n` with the frontier unchanged — retries are unbounded. -/
theorem c4_unbounded_retries {σ δ : Type} (g : WebGraph σ δ) (cn : String)
    {cnode : ActionNode σ δ} {cchilds : List String} {f : δ → σ → σ}
    (F : List String)
    (hdefault : g.fallback_action_max_retries = none)
    (hfind : g.find cn = some (cnode, cchilds))
    (hnode : cnode.fallback_action_max_retries = none)
    (hfb : cnode.fallback_action = some f)
    (hFne : F ≠ [])
    (hfalse : ∀ st, ∀ a ∈ F, ∀ p, g.find a = some p →
      p.1.run_condition g.driver st = false) :
    ∀ (n : Nat) (s : LoopSt σ), s.frontier = F → s.current = some cn →
      g.runLoop n s = (Outcome.spin,
        { frontier := F, current := some cn, retries := s.retries + n
        , st := (fun st => f g.driver st)^[n] s.st
        , trace := s.trace ++ List.replicate n (Ev.fallback cn) }) := by
  intro n
  induction n with
  | zero =>
    intro s hf hc
    obtain ⟨fr, cur, r, st, tr⟩ := s
    simp only at hf hc
    subst hf
    subst hc
    simp [WebGraph.runLoop]
  | succ n ih =>
    intro s hf hc
    have hscan : g.findFirstMatch s.st s.frontier = none := by
      rw [hf]
      exact findFirstMatch_all_false g s.st F (hfalse s.st)
    have hstep := step_nomatch g s cn hscan hc hfind
      (by intro m hm; rw [hnode] at hm; cases hm)
      (by intro _ m hm; rw [hdefault] at hm; cases hm)
      (by rw [hf]; exact hFne)
    rw [runLoop_next g n hstep]
    rw [ih _ (by simpa using hf) (by simpa using hc)]
    have hrf : cnode.run_fallback g.driver s.st = f g.driver s.st := by
      rw [ActionNode.run_fallback, hfb]
    have hev : (if cnode.fallback_action.isSome then [Ev.fallback cn] else []) =
        [Ev.fallback cn] := by
      rw [hfb]
      rfl
    simp [hrf, hev, Prod.mk.injEq, LoopSt.mk.injEq, Function.iterate_succ_apply,
      List.replicate_succ]
    omega

/-- Node `N1` of the C4 witness: no retry ceiling, fallback defined. -/
def c4Node1 : ActionNode Nat Unit :=
  { name := "N1", action := fun _ s => s, fallback_action := some (fun _ s => s + 1) }

/-- Node `N2` of the C4 witness: permanently false condition. -/
def c4Node2 : ActionNode Nat Unit :=
  { name := "N2", action := fun _ s => s
  , condition := some (fun _ _ => PyVal.bool false) }

/-- The C4 witness graph: `START → N1 → N2`, no ceiling anywhere. -/
def c4Graph : WebGraph Nat Unit :=
  { driver := ()
  , state := 0
  , nodes := [("START", startNode Nat Unit, ["N1"]), ("N1", c4Node1, ["N2"]),
              ("N2", c4Node2, [])]
  , current_node := c4Node2 }

/-- Witness for C4 at a concrete graph and `n = 3`: three loop iterations
stuck at `N1` run the fallback three times and raise nothing. -/
theorem c4_witness :
    c4Graph.runLoop 3
      { frontier := ["N2"], current := some "N1", retries := 0, st := 0, trace := [] } =
      (Outcome.spin,
        { frontier := ["N2"], current := some "N1", retries := 3, st := 3
        , trace := [Ev.fallback "N1", Ev.fallback "N1", Ev.fallback "N1"] }) := by
  have h := c4_unbounded_retries c4Graph "N1" ["N2"] rfl rfl rfl rfl
    (List.cons_ne_nil _ _)
    (by
      intro st a ha p hp
      rcases List.mem_singleton.mp ha with rfl
      have h2 := (show c4Graph.find "N2" = some (c4Node2, []) from rfl).symm.trans hp
      rw [← ((Option.some.injEq _ _).mp h2)]
      rfl)
    3 { frontier := ["N2"], current := some "N1", retries := 0, st := 0, trace := [] }
    rfl rfl
  exact h

/-- The linear chain followed by a conditionless run: `RunChain g n names`
says the first-inserted child of `n` is the head of `names`, and so on,
down to a node with no children. -/
inductive RunChain {σ δ : Type} (g : WebGraph σ δ) : String → List String → Prop where
  | nil (n : String) (node : ActionNode σ δ)
      (h : g.find n = some (node, [])) : RunChain g n []
  | cons (n m : String) (node : ActionNode σ δ) (tail rest : List String)
      (h : g.find n = some (node, m :: tail)) (hrest : RunChain g m rest) :
      RunChain g n (m :: rest)

/-- Auxiliary induction for C5: from a loop state whose frontier starts
with a chain node, a conditionless graph runs down the chain, appending
one action event per chain node, and terminates. -/
theorem c5_aux {σ δ : Type} (g : WebGraph σ δ)
    (hcond : ∀ e ∈ g.nodes, (e.2.1).condition = none)
    (hceil : ∀ e ∈ g.nodes, ∀ m : Int, (e.2.1).fallback_action_max_retries = some m → 0 < m)
    (hdef : ∀ m : Int, g.fallback_action_max_retries = some m → 0 < m) :
    ∀ (names : List String) (mname : String) (rest : List String) (s : LoopSt σ)
      (fuel : Nat), RunChain g mname names → s.frontier = mname :: rest →
      names.length + 1 ≤ fuel →
      (g.runLoop fuel s).1 = Outcome.done ∧
      (g.runLoop fuel s).2.trace = s.trace ++ (mname :: names).map Ev.action := by
  intro names
  induction names with
  | nil =>
    intro mname rest s fuel hchain hfr hfuel
    obtain ⟨fu, rfl⟩ : ∃ fu, fuel = fu + 1 := ⟨fuel - 1, by omega⟩
    cases hchain with
    | nil _ node hfind =>
      have hmem := lookupNode_mem (show lookupNode g.nodes mname = some (node, []) from hfind)
      have hrc : node.run_condition g.driver s.st = true := by
        rw [ActionNode.run_condition, hcond _ hmem]
      have hscan : g.findFirstMatch s.st s.frontier = some mname := by
        rw [hfr]
        exact findFirstMatch_cons_true g s.st mname rest hfind hrc
      have hstep := step_match g s mname hscan hfind
        (fun m hm => hceil _ hmem m hm) (fun _ m hm => hdef m hm)
      rw [runLoop_done g fu (by simpa using hstep)]
      exact ⟨rfl, by simp⟩
  | cons m2 names' ih =>
    intro mname rest s fuel hchain hfr hfuel
    obtain ⟨fu, rfl⟩ : ∃ fu, fuel = fu + 1 := ⟨fuel - 1, by omega⟩
    cases hchain with
    | cons _ _ node tail _ hfind hrest =>
      have hmem := lookupNode_mem
        (show lookupNode g.nodes mname = some (node, m2 :: tail) from hfind)
      have hrc : node.run_condition g.driver s.st = true := by
        rw [ActionNode.run_condition, hcond _ hmem]
      have hscan : g.findFirstMatch s.st s.frontier = some mname := by
        rw [hfr]
        exact findFirstMatch_cons_true g s.st mname rest hfind hrc
      have hstep := step_match g s mname hscan hfind
        (fun m hm => hceil _ hmem m hm) (fun _ m hm => hdef m hm)
      rw [runLoop_next g fu (by simpa using hstep)]
      have hrec := ih m2 tail
        { frontier := m2 :: tail, current := some mname, retries := 0
        , st := node.run g.driver s.st, trace := s.trace ++ [Ev.action mname] }
        fu hrest rfl (by simpa using hfuel)
      refine ⟨hrec.1, ?_⟩
      rw [hrec.2]
      simp

/-- C5: on a graph all of whose nodes have no condition (retry ceilings,
when configured, positive as the spec types them), `run()` terminates
successfully and the trace is exactly one action per node of the linear
chain that starts at the `START` sentinel and follows the first-inserted
child of each node, in insertion order, ending at the first node with no
children — each visited node's action runs exactly once and nothing else
runs. -/
theorem c5_conditionless_linear_run {σ δ : Type} (g : WebGraph σ δ)
    (hcond : ∀ e ∈ g.nodes, (e.2.1).condition = none)
    (hceil : ∀ e ∈ g.nodes, ∀ m : Int, (e.2.1).fallback_action_max_retries = some m → 0 < m)
    (hdef : ∀ m : Int, g.fallback_action_max_retries = some m → 0 < m)
    (names : List String) (hchain : RunChain g "START" names)
    (fuel : Nat) (hfuel : names.length + 1 ≤ fuel) :
    (g.run fuel).1 = Outcome.done ∧
    (g.run fuel).2.trace = ("START" :: names).map Ev.action := by
  have h := c5_aux g hcond hceil hdef names "START" [] g.initLoopSt fuel hchain rfl hfuel
  exact ⟨h.1, by simpa using h.2⟩

/-- Step `S1` of the C5 witness chain (no condition). -/
def c5Node1 : ActionNode Nat Unit := { name := "S1", action := fun _ s => s + 1 }

/-- Step `S2` of the C5 witness chain (no condition, no children). -/
def c5Node2 : ActionNode Nat Unit := { name := "S2", action := fun _ s => s + 2 }

/-- The C5 witness graph: the conditionless chain `START → S1 → S2`. -/
def c5Graph : WebGraph Nat Unit :=
  { driver := ()
  , state := 0
  , nodes := [("START", startNode Nat Unit, ["S1"]), ("S1", c5Node1, ["S2"]),
              ("S2", c5Node2, [])]
  , current_node := c5Node2 }

/-- Witness for C5 at a concrete conditionless chain: the run terminates
successfully after executing `START`, `S1`, `S2` exactly once each. -/
theorem c5_witness :
    (c5Graph.run 3).1 = Outcome.done ∧
    (c5Graph.run 3).2.trace = [Ev.action "START", Ev.action "S1", Ev.action "S2"] := by
  have h := c5_conditionless_linear_run c5Graph
    (by intro e he; fin_cases he <;> rfl)
    (by intro e he m hm; fin_cases he <;> simp [startNode, c5Node1, c5Node2] at hm)
    (by intro m hm; cases hm)
    ["S1", "S2"]
    (RunChain.cons _ _ (startNode Nat Unit) [] _ rfl
      (RunChain.cons _ _ c5Node1 [] _ rfl
        (RunChain.nil _ c5Node2 rfl)))
    3 (by decide)
  simpa using h

/-- The C1 scenario graph: linear chain `START → N1 → N2 → N3`; `N1` has
the node-level retry ceiling `3` and a fallback action, `N2` has a
condition, and the graph-level default ceiling is `5`. -/
def c1Graph (σ δ : Type) (d : δ) (st0 : σ) (a1 a2 a3 f1 : δ → σ → σ)
    (c : δ → σ → PyVal) : WebGraph σ δ :=
  { driver := d
  , state := st0
  , fallback_action_max_retries := some 5
  , nodes :=
      [("START", startNode σ δ, ["N1"]),
       ("N1", { name := "N1", action := a1, fallback_action := some f1
              , fallback_action_max_retries := some 3 }, ["N2"]),
       ("N2", { name := "N2", action := a2, condition := some c }, ["N3"]),
       ("N3", { name := "N3", action := a3 }, [])]
  , current_node := { name := "N3", action := a3 } }

/-- C1: on the scenario graph — `N1` with node-level ceiling `3`, graph
default `5`, and `N2`'s condition never satisfied — `run()` executes `N1`'s
action exactly once and `N1`'s fallback action exactly `3` times, then
raises the retry-exhaustion error naming `N1` with ceiling `3` (not `5`);
the actions of the descendants `N2` and `N3` never appear in the trace. -/
theorem c1_node_ceiling_beats_graph_default (σ δ : Type) (d : δ) (st0 : σ)
    (a1 a2 a3 f1 : δ → σ → σ) (c : δ → σ → PyVal)
    (hc : ∀ st, (c d st).truthy = false)
    (fuel : Nat) (hfuel : 6 ≤ fuel) :
    ((c1Graph σ δ d st0 a1 a2 a3 f1 c).run fuel).1 = Outcome.raised "N1" 3 ∧
    ((c1Graph σ δ d st0 a1 a2 a3 f1 c).run fuel).2.trace =
      [Ev.action "START", Ev.action "N1",
       Ev.fallback "N1", Ev.fallback "N1", Ev.fallback "N1"] := by
  obtain ⟨k, rfl⟩ : ∃ k, fuel = k + 6 := ⟨fuel - 6, by omega⟩
  set g := c1Graph σ δ d st0 a1 a2 a3 f1 c with hg
  have hfS : g.find "START" = some (startNode σ δ, ["N1"]) := rfl
  have hf1 : g.find "N1" = some
      ({ name := "N1", action := a1, fallback_action := some f1
       , fallback_action_max_retries := some 3 }, ["N2"]) := rfl
  have hf2 : g.find "N2" = some
      ({ name := "N2", action := a2, condition := some c }, ["N3"]) := rfl
  have hdrv : g.driver = d := rfl
  have hscan2 : ∀ st, g.findFirstMatch st ["N2"] = none := by
    intro st
    refine findFirstMatch_all_false g st ["N2"] ?_
    intro a ha p hp
    rcases List.mem_singleton.mp ha with rfl
    have h2 := hf2.symm.trans hp
    rw [← ((Option.some.injEq _ _).mp h2)]
    show ActionNode.run_condition _ g.driver st = false
    rw [ActionNode.run_condition]
    simp [hdrv, hc st]
  -- iteration 1: START matches
  have h1 : g.step g.initLoopSt = StepOut.next
      { frontier := ["N1"], current := some "START", retries := 0, st := st0
      , trace := [Ev.action "START"] } := by
    have hstep := step_match g g.initLoopSt "START"
      (findFirstMatch_cons_true g _ "START" [] hfS rfl) hfS
      (by intro m hm; cases hm)
      (by intro _ m hm; injection hm with h2; omega)
    simpa using hstep
  -- iteration 2: N1 matches
  have h2 : g.step
      { frontier := ["N1"], current := some "START", retries := 0, st := st0
      , trace := [Ev.action "START"] } = StepOut.next
      { frontier := ["N2"], current := some "N1", retries := 0, st := a1 d st0
      , trace := [Ev.action "START", Ev.action "N1"] } := by
    have hstep := step_match g
      { frontier := ["N1"], current := some "START", retries := 0, st := st0
      , trace := [Ev.action "START"] } "N1"
      (findFirstMatch_cons_true g st0 "N1" [] hf1 rfl) hf1
      (by intro m hm; injection hm with h2; omega)
      (by intro hn _ _; cases hn)
    simpa using hstep
  -- iterations 3 to 5: fallback of N1 below the ceiling
  have h345 : ∀ r : Nat, r < 3 → ∀ st tr, g.step
      { frontier := ["N2"], current := some "N1", retries := r, st := st
      , trace := tr } = StepOut.next
      { frontier := ["N2"], current := some "N1", retries := r + 1, st := f1 d st
      , trace := tr ++ [Ev.fallback "N1"] } := by
    intro r hr st tr
    have hstep := step_nomatch g
      { frontier := ["N2"], current := some "N1", retries := r, st := st, trace := tr }
      "N1" (hscan2 st) rfl hf1
      (by intro m hm; injection hm with h2; show (r : Int) < m; omega)
      (by intro hn _ _; cases hn)
      (by simp)
    simpa using hstep
  -- iteration 6: ceiling reached, raise
  have h6 : ∀ st tr, g.step
      { frontier := ["N2"], current := some "N1", retries := 3, st := st
      , trace := tr } = StepOut.raised "N1" 3
      { frontier := ["N2"], current := some "N1", retries := 3, st := st
      , trace := tr } := by
    intro st tr
    exact step_raise_node g
      { frontier := ["N2"], current := some "N1", retries := 3, st := st
      , trace := tr } "N1" (hscan2 st) rfl hf1 rfl
      (by show ((3 : Nat) : Int) ≥ 3; norm_num)
  rw [WebGraph.run]
  rw [show k + 6 = (k + 5) + 1 from rfl, runLoop_next g (k + 5) h1]
  rw [show k + 5 = (k + 4) + 1 from rfl, runLoop_next g (k + 4) h2]
  rw [show k + 4 = (k + 3) + 1 from rfl,
    runLoop_next g (k + 3) (h345 0 (by omega) _ _)]
  rw [show k + 3 = (k + 2) + 1 from rfl,
    runLoop_next g (k + 2) (h345 1 (by omega) _ _)]
  rw [show k + 2 = (k + 1) + 1 from rfl,
    runLoop_next g (k + 1) (h345 2 (by omega) _ _)]
  rw [show k + 1 = k + 1 from rfl, runLoop_raised g k (h6 _ _)]
  exact ⟨rfl, rfl⟩

/-- Witness for C1 at a concrete instantiation of the scenario graph with
fuel `6`: the run raises the retry-exhaustion error naming `N1` with
ceiling `3`, after one `N1` action and exactly three `N1` fallbacks, and
no `N2` or `N3` action. -/
theorem c1_witness :
    ((c1Graph Nat Unit () 0 (fun _ s => s + 1) (fun _ s => s) (fun _ s => s)
        (fun _ s => s + 10) (fun _ _ => PyVal.bool false)).run 6).1 =
      Outcome.raised "N1" 3 ∧
    ((c1Graph Nat Unit () 0 (fun _ s => s + 1) (fun _ s => s) (fun _ s => s)
        (fun _ s => s + 10) (fun _ _ => PyVal.bool false)).run 6).2.trace =
      [Ev.action "START", Ev.action "N1",
       Ev.fallback "N1", Ev.fallback "N1", Ev.fallback "N1"] :=
  c1_node_ceiling_beats_graph_default Nat Unit () 0 (fun _ s => s + 1)
    (fun _ s => s) (fun _ s => s) (fun _ s => s + 10)
    (fun _ _ => PyVal.bool false) (fun _ => rfl) 6 (by omega)
